import Mathlib

/- Verification development for TimeLib.c, a software real-time clock for
   embedded devices.  The calendar arithmetic (time_is_leap, time_make,
   time_break) is embedded as pure functions on Nat with the 32-bit unsigned
   arithmetic of the C sources made explicit as reductions modulo U32.  The
   clock state machine (time_set, time_get, time_set_provider) is embedded as
   explicit state passing over a TimeState record; the hardware tick counter
   and the time-provider callback are supplied as environment inputs. -/

set_option maxRecDepth 100000

namespace TimeLib

/-- 32-bit modulus: TimeLib.c computes calendar timestamps in uint32_t
(lines 108, 139, 142) and tick arithmetic in 32-bit unsigned long. -/
def U32 : Nat := 4294967296

/-- Modelled from the spec: TIME_SECS_PER_DAY is defined in the missing
header TimeLib.h; the spec fixes one day as 86400 seconds. -/
def TIME_SECS_PER_DAY : Nat := 86400

/-- Modelled from the spec: seconds per hour, from the missing TimeLib.h. -/
def TIME_SECS_PER_HOUR : Nat := 3600

/-- Modelled from the spec: seconds per minute, from the missing TimeLib.h. -/
def TIME_SECS_PER_MINUTE : Nat := 60

/-- month_length, TimeLib.c line 23: day count of each month, non-leap year. -/
def month_length : List Nat := [31, 28, 31, 30, 31, 30, 31, 31, 30, 31, 30, 31]

/-- time_is_leap, TimeLib.c lines 56-60. -/
def time_is_leap (year : Nat) : Bool :=
  (year % 4 == 0 && year % 100 != 0) || year % 400 == 0

/-- struct tm_t from the TimeLib.h interface (field semantics per spec
sections 3 and 6); all fields are modelled as naturals. -/
structure tm_t where
  tm_sec : Nat
  tm_min : Nat
  tm_hour : Nat
  tm_wday : Nat
  tm_mday : Nat
  tm_mon : Nat
  tm_year : Nat
deriving DecidableEq

/-- First loop of time_make, TimeLib.c lines 114-117: one extra day of
seconds for every leap year among 1970 .. 1970 + tm_year - 1, accumulated in
the uint32_t tstamp.  Iterations run in ascending order of i. -/
def leapLoop : Nat → Nat → Nat
  | 0, tstamp => tstamp
  | y + 1, tstamp =>
      if time_is_leap (y + 1970) then (leapLoop y tstamp + TIME_SECS_PER_DAY) % U32
      else leapLoop y tstamp

/-- Second loop of time_make, TimeLib.c lines 119-124: seconds of the months
1 ≤ i < tm_mon, accumulated in the uint32_t tstamp.  The first argument is
the count of months processed, i.e. tm_mon - 1; iteration k + 1 is the C
loop iteration with i = k + 1. -/
def monLoop (leapYear : Bool) : Nat → Nat → Nat
  | 0, tstamp => tstamp
  | k + 1, tstamp =>
      if k + 1 == 2 && leapYear then
        (monLoop leapYear k tstamp + TIME_SECS_PER_DAY * 29) % U32
      else
        (monLoop leapYear k tstamp + TIME_SECS_PER_DAY * month_length.getD (k + 1 - 1) 0) % U32

/-- time_make, TimeLib.c lines 105-133.  The uint32_t accumulator is
modelled by reducing modulo U32 after every addition. -/
def time_make (t : tm_t) : Nat :=
  let tstamp := t.tm_year * (TIME_SECS_PER_DAY * 365) % U32
  let tstamp := leapLoop t.tm_year tstamp
  let tstamp := monLoop (time_is_leap (t.tm_year + 1970)) (t.tm_mon - 1) tstamp
  let tstamp := (tstamp + (t.tm_mday - 1) * TIME_SECS_PER_DAY) % U32
  let tstamp := (tstamp + t.tm_hour * TIME_SECS_PER_HOUR) % U32
  let tstamp := (tstamp + t.tm_min * TIME_SECS_PER_MINUTE) % U32
  (tstamp + t.tm_sec) % U32

/-- Reference value for the refinement claim about 32-bit accumulation:
the leap-year seconds of time_make computed with unbounded integers,
following the spec section 4.1 step 2. -/
def leapSecsTotal : Nat → Nat
  | 0 => 0
  | y + 1 => leapSecsTotal y + (if time_is_leap (y + 1970) then TIME_SECS_PER_DAY else 0)

/-- Reference value: the elapsed-month seconds of time_make with unbounded
integers, following the spec section 4.1 step 3. -/
def monSecsTotal (leapYear : Bool) : Nat → Nat
  | 0 => 0
  | k + 1 => monSecsTotal leapYear k +
      (if k + 1 == 2 && leapYear then TIME_SECS_PER_DAY * 29
       else TIME_SECS_PER_DAY * month_length.getD (k + 1 - 1) 0)

/-- Reference definition for the refinement claim: the make algorithm of
spec section 4.1 carried out with unbounded integers (no 32-bit wrap). -/
def time_make_total (t : tm_t) : Nat :=
  t.tm_year * (TIME_SECS_PER_DAY * 365) + leapSecsTotal t.tm_year
    + monSecsTotal (time_is_leap (t.tm_year + 1970)) (t.tm_mon - 1)
    + (t.tm_mday - 1) * TIME_SECS_PER_DAY
    + t.tm_hour * TIME_SECS_PER_HOUR + t.tm_min * TIME_SECS_PER_MINUTE + t.tm_sec

/-- Year-finding loop of time_break, TimeLib.c lines 154-161.  The while
loop is modelled with a fuel argument so that it stays structurally
recursive; fuel xTime + 1 always suffices because every pass adds at least
365 to days and runs only while the new total stays ≤ xTime.  The result
pairs the year offset with the day total of the fully elapsed years, which
is exactly the value C holds in days after the subtraction on line 161. -/
def yearLoop (xTime : Nat) : Nat → Nat → Nat → Nat × Nat
  | 0, year, days => (year, days)
  | fuel + 1, year, days =>
      if days + (if time_is_leap (1970 + year) then 366 else 365) ≤ xTime then
        yearLoop xTime fuel (year + 1) (days + (if time_is_leap (1970 + year) then 366 else 365))
      else (year, days)

/-- Month loop of time_break, TimeLib.c lines 164-184, with fuel 12
mirroring the for-loop bound month < 12.  Returns the final month index and
the remaining days within that month. -/
def monthLoop (leapYear : Bool) : Nat → Nat → Nat → Nat × Nat
  | 0, month, xTime => (month, xTime)
  | fuel + 1, month, xTime =>
      if month < 12 then
        if (if month == 1 then (if leapYear then 29 else 28) else month_length.getD month 0) ≤ xTime then
          monthLoop leapYear fuel (month + 1)
            (xTime - (if month == 1 then (if leapYear then 29 else 28) else month_length.getD month 0))
        else (month, xTime)
      else (month, xTime)

/-- time_break, TimeLib.c lines 135-187.  The uint32_t cast on line 142 is
the reduction modulo U32. -/
def time_break (timeinput : Nat) : tm_t :=
  let x0 := timeinput % U32
  let x1 := x0 / 60
  let x2 := x1 / 60
  let x3 := x2 / 24
  let yd := yearLoop x3 (x3 + 1) 0 0
  let md := monthLoop (time_is_leap (1970 + yd.1)) 12 0 (x3 - yd.2)
  { tm_sec := x0 % 60, tm_min := x1 % 60, tm_hour := x2 % 24,
    tm_wday := (x3 + 4) % 7 + 1,
    tm_year := yd.1, tm_mon := md.1 + 1, tm_mday := md.2 + 1 }

/-- Status enum from TimeLib.h (order per spec section 6:
NOT_SET = 0, then NEEDS_SYNC, then OK). -/
inductive enTimeStatus
  | E_TIME_NOT_SET
  | E_TIME_NEEDS_SYNC
  | E_TIME_OK
deriving DecidableEq

/-- The file-scope module state of TimeLib.c, lines 26-47.  The time-provider
callback is modelled by whether a (non-null) callback is registered; its
return value is supplied as an environment input at each call that may invoke
it. -/
structure TimeState where
  sys_time : Nat
  sync_interval : Nat
  sync_next : Nat
  last_update : Nat
  enTimeCurrentStatus : enTimeStatus
  time_provider_callback : Bool
deriving DecidableEq

/-- Initial values of the module state, TimeLib.c lines 26-47. -/
def initState : TimeState :=
  { sys_time := 0, sync_interval := 86400, sync_next := 0, last_update := 0,
    enTimeCurrentStatus := .E_TIME_NOT_SET, time_provider_callback := false }

/-- Unsigned 32-bit modular subtraction, as performed by the expression
tick_get() - last_update on TimeLib.c line 96 with unsigned operands. -/
def usub32 (a b : Nat) : Nat := (a + (U32 - b % U32)) % U32

/-- time_set, TimeLib.c lines 66-72.  The tick argument is the value
tick_get() returns during the call; as an unsigned long it is a value
modulo U32. -/
def time_set (now tick : Nat) (s : TimeState) : TimeState :=
  { s with sys_time := now, sync_next := now + s.sync_interval,
           enTimeCurrentStatus := .E_TIME_OK, last_update := tick % U32 }

/-- The sync-controller phase of time_get, TimeLib.c lines 78-92.  ret is
the value the provider callback returns if it is invoked. -/
def sync_check (ret tick : Nat) (s : TimeState) : TimeState :=
  if s.sync_next ≤ s.sys_time then
    if s.time_provider_callback = true then
      if ret ≠ 0 then time_set ret tick s
      else { s with sync_next := s.sys_time + s.sync_interval,
                    enTimeCurrentStatus :=
                      if s.enTimeCurrentStatus = .E_TIME_NOT_SET then .E_TIME_NOT_SET
                      else .E_TIME_NEEDS_SYNC }
    else s
  else s

/-- The tick-accumulator while loop of time_get, TimeLib.c lines 96-100,
for one observed value of the tick counter.  TPS is the TICK_SECOND constant
of the missing TimeLib.h.  The loop is modelled with a fuel argument so that
it stays structurally recursive; fuel usub32 tick last_update suffices
whenever 0 < TPS, because each pass shrinks the elapsed-tick count by TPS
(tick_loop_spec below proves the closed form under exactly that fuel). -/
def tick_loop (TPS tick : Nat) : Nat → Nat → Nat → Nat × Nat
  | 0, sys_time, last_update => (sys_time, last_update)
  | fuel + 1, sys_time, last_update =>
      if TPS ≤ usub32 tick last_update then
        tick_loop TPS tick fuel (sys_time + 1) ((last_update + TPS) % U32)
      else (sys_time, last_update)

/-- time_get, TimeLib.c lines 74-103: first the sync-controller due check,
then the tick accumulator, then return sys_time.  The tick counter is read
as one snapshot value for the whole call. -/
def time_get (TPS tick ret : Nat) (s : TimeState) : Nat × TimeState :=
  let s1 := sync_check ret tick s
  let p := tick_loop TPS tick (usub32 tick s1.last_update) s1.sys_time s1.last_update
  (p.1, { s1 with sys_time := p.1, last_update := p.2 })

/-- time_set_provider, TimeLib.c lines 189-202.  callback is whether the
passed pointer is non-null; ret is what the provider returns in the forced
time_get cycle. -/
def time_set_provider (TPS : Nat) (callback : Bool) (timespan tick ret : Nat)
    (s : TimeState) : TimeState :=
  if callback = false then s
  else
    let s1 := { s with time_provider_callback := true,
                       sync_interval := if timespan = 0 then TIME_SECS_PER_DAY else timespan,
                       sync_next := s.sys_time }
    (time_get TPS tick ret s1).2

/-- One externally observable call into the facade, with the environment
inputs (tick counter value, provider return value) it happens under. -/
inductive TEvent
  | eset (now tick : Nat)
  | eget (tick ret : Nat)
  | eprov (callback : Bool) (timespan tick ret : Nat)

/-- Effect of one facade call on the module state. -/
def step (TPS : Nat) (s : TimeState) : TEvent → TimeState
  | .eset now tick => time_set now tick s
  | .eget tick ret => (time_get TPS tick ret s).2
  | .eprov callback timespan tick ret => time_set_provider TPS callback timespan tick ret s

/-- Module state reached after a sequence of facade calls. -/
def run (TPS : Nat) (s : TimeState) : List TEvent → TimeState
  | [] => s
  | e :: es => run TPS (step TPS s e) es

/-- The exact condition of claim C2 evaluated along a trace: true when the
most recent set call (direct time_set, or time_set reached through a
successful provider sync) had a nonzero argument and no event of the
provider returning 0 while due has occurred since. -/
def okSpec (TPS : Nat) : Bool → TimeState → List TEvent → Bool
  | g, _, [] => g
  | g, s, e :: es =>
      okSpec TPS
        (match e with
         | .eset now _ => decide (now ≠ 0)
         | .eget _ ret =>
             if s.sync_next ≤ s.sys_time ∧ s.time_provider_callback = true then decide (ret ≠ 0)
             else g
         | .eprov callback _ _ ret => if callback then decide (ret ≠ 0) else g)
        (step TPS s e) es

/-- The amended condition: some set call has occurred (with any argument,
since time_set unconditionally stores E_TIME_OK) and no provider-return-0
while-due event has occurred since the most recent one. -/
def okAmended (TPS : Nat) : Bool → TimeState → List TEvent → Bool
  | g, _, [] => g
  | g, s, e :: es =>
      okAmended TPS
        (match e with
         | .eset _ _ => true
         | .eget _ ret =>
             if s.sync_next ≤ s.sys_time ∧ s.time_provider_callback = true then decide (ret ≠ 0)
             else g
         | .eprov callback _ _ ret => if callback then decide (ret ≠ 0) else g)
        (step TPS s e) es

/-- Return values of a sequence of consecutive time_get calls, each given
its environment inputs (tick value, provider return). -/
def getOutputs (TPS : Nat) (s : TimeState) : List (Nat × Nat) → List Nat
  | [] => []
  | (tick, ret) :: rest =>
      (time_get TPS tick ret s).1 :: getOutputs TPS (time_get TPS tick ret s).2 rest

/-- No provider invocation takes effect during the given sequence of
time_get calls: whenever a sync is due and a provider is registered, the
provider returns 0. -/
def noEffSync (TPS : Nat) (s : TimeState) : List (Nat × Nat) → Prop
  | [] => True
  | (tick, ret) :: rest =>
      (s.sync_next ≤ s.sys_time → s.time_provider_callback = true → ret = 0) ∧
      noEffSync TPS (time_get TPS tick ret s).2 rest

/-- Number of leap years among 1970 .. 1970 + y - 1 (proof-side closed form
of the leap accounting both conversion routines perform). -/
def leapDays : Nat → Nat
  | 0 => 0
  | y + 1 => leapDays y + (if time_is_leap (1970 + y) then 1 else 0)

/-- Days from 1970-01-01 to the start of year 1970 + y. -/
def dayTotal (y : Nat) : Nat := 365 * y + leapDays y

/-- Length in days of month index m (0-based) as both conversion routines
compute it: February by the leap flag, all others from month_length. -/
def monthLen (leapYear : Bool) (m : Nat) : Nat :=
  if m == 1 then (if leapYear then 29 else 28) else month_length.getD m 0

/-- Days from the start of the year to the start of month index m. -/
def cumMonth (leapYear : Bool) : Nat → Nat
  | 0 => 0
  | m + 1 => cumMonth leapYear m + monthLen leapYear m

lemma usub32_lt (a b : Nat) : usub32 a b < U32 := by
  simp only [usub32, U32]; omega

lemma usub32_shift (a b k : Nat) (h : k ≤ usub32 a b) :
    usub32 a ((b + k) % U32) = usub32 a b - k := by
  simp only [usub32, U32] at *; omega

lemma usub32_chain (a b c : Nat) (h : usub32 a b + usub32 b c < U32) :
    usub32 a c = usub32 a b + usub32 b c := by
  simp only [usub32, U32] at *; omega

lemma tick_loop_spec (TPS tick : Nat) (hTPS : 0 < TPS) :
    ∀ fuel st lu, lu < U32 → usub32 tick lu ≤ fuel →
      tick_loop TPS tick fuel st lu =
        (st + usub32 tick lu / TPS, (lu + usub32 tick lu / TPS * TPS) % U32) := by
  intro fuel
  induction fuel with
  | zero =>
      intro st lu hlu hle
      have h0 : usub32 tick lu = 0 := Nat.le_zero.mp hle
      simp [tick_loop, h0, Nat.mod_eq_of_lt hlu]
  | succ n ih =>
      intro st lu hlu hle
      simp only [tick_loop]
      by_cases hc : TPS ≤ usub32 tick lu
      · rw [if_pos hc]
        have hsh := usub32_shift tick lu TPS hc
        have hlt : (lu + TPS) % U32 < U32 := by simp only [U32]; omega
        have hle2 : usub32 tick ((lu + TPS) % U32) ≤ n := by omega
        rw [ih (st + 1) _ hlt hle2, hsh]
        have hdiv : usub32 tick lu / TPS = (usub32 tick lu - TPS) / TPS + 1 :=
          Nat.div_eq_sub_div hTPS hc
        refine congrArg₂ Prod.mk (by omega) ?_
        rw [Nat.mod_add_mod, hdiv, Nat.succ_mul]
        have : lu + TPS + (usub32 tick lu - TPS) / TPS * TPS =
            lu + ((usub32 tick lu - TPS) / TPS * TPS + TPS) := by omega
        rw [this]
      · rw [if_neg hc]
        have h0 : usub32 tick lu / TPS = 0 := Nat.div_eq_of_lt (by omega)
        simp [h0, Nat.mod_eq_of_lt hlu]

lemma tick_loop_fst_le (TPS tick : Nat) :
    ∀ fuel st lu, st ≤ (tick_loop TPS tick fuel st lu).1 := by
  intro fuel
  induction fuel with
  | zero => intro st lu; exact Nat.le_refl st
  | succ n ih =>
      intro st lu
      simp only [tick_loop]
      split
      · exact Nat.le_trans (Nat.le_succ st) (ih (st + 1) _)
      · exact Nat.le_refl st

lemma sync_check_lu (ret tick : Nat) (s : TimeState) (h : s.last_update < U32) :
    (sync_check ret tick s).last_update < U32 := by
  unfold sync_check time_set
  split
  · split
    · split
      · simp only [U32]; omega
      · exact h
    · exact h
  · exact h

lemma sync_check_nofx (ret tick : Nat) (s : TimeState)
    (h : s.sync_next ≤ s.sys_time → s.time_provider_callback = true → ret = 0) :
    (sync_check ret tick s).sys_time = s.sys_time ∧
    (sync_check ret tick s).last_update = s.last_update := by
  unfold sync_check
  by_cases h1 : s.sync_next ≤ s.sys_time
  · rw [if_pos h1]
    by_cases h2 : s.time_provider_callback = true
    · rw [if_pos h2, if_neg (by simp [h h1 h2])]
      exact ⟨rfl, rfl⟩
    · rw [if_neg h2]; exact ⟨rfl, rfl⟩
  · rw [if_neg h1]; exact ⟨rfl, rfl⟩

lemma time_get_eq (TPS tick ret : Nat) (s : TimeState) (hTPS : 0 < TPS)
    (hlu : (sync_check ret tick s).last_update < U32) :
    time_get TPS tick ret s =
      ((sync_check ret tick s).sys_time + usub32 tick (sync_check ret tick s).last_update / TPS,
       { sync_check ret tick s with
           sys_time := (sync_check ret tick s).sys_time +
             usub32 tick (sync_check ret tick s).last_update / TPS,
           last_update := ((sync_check ret tick s).last_update +
             usub32 tick (sync_check ret tick s).last_update / TPS * TPS) % U32 }) := by
  simp only [time_get]
  rw [tick_loop_spec TPS tick hTPS _ _ _ hlu (Nat.le_refl _)]

/-- C4: whenever a sync is due, a provider is registered, and the provider
returns 0, the status stays E_TIME_NOT_SET if it was E_TIME_NOT_SET, becomes
E_TIME_NEEDS_SYNC if it was E_TIME_OK, stays E_TIME_NEEDS_SYNC if it was
E_TIME_NEEDS_SYNC, and the seconds counter is not modified by the sync
step. -/
theorem sync_fail_transitions (s : TimeState) (tick : Nat)
    (hdue : s.sync_next ≤ s.sys_time) (hprov : s.time_provider_callback = true) :
    (sync_check 0 tick s).sys_time = s.sys_time ∧
    (s.enTimeCurrentStatus = .E_TIME_NOT_SET →
      (sync_check 0 tick s).enTimeCurrentStatus = .E_TIME_NOT_SET) ∧
    (s.enTimeCurrentStatus = .E_TIME_OK →
      (sync_check 0 tick s).enTimeCurrentStatus = .E_TIME_NEEDS_SYNC) ∧
    (s.enTimeCurrentStatus = .E_TIME_NEEDS_SYNC →
      (sync_check 0 tick s).enTimeCurrentStatus = .E_TIME_NEEDS_SYNC) := by
  unfold sync_check
  rw [if_pos hdue, if_pos hprov, if_neg (by simp)]
  refine ⟨rfl, ?_, ?_, ?_⟩ <;> intro h <;> simp [h]

/-- Witness for sync_fail_transitions at a concrete state with status
E_TIME_OK, a registered provider, and an overdue sync. -/
theorem sync_fail_transitions_witness :
    (sync_check 0 7 ⟨1000, 100, 900, 0, .E_TIME_OK, true⟩).sys_time = 1000 ∧
    ((⟨1000, 100, 900, 0, .E_TIME_OK, true⟩ : TimeState).enTimeCurrentStatus = .E_TIME_NOT_SET →
      (sync_check 0 7 ⟨1000, 100, 900, 0, .E_TIME_OK, true⟩).enTimeCurrentStatus = .E_TIME_NOT_SET) ∧
    ((⟨1000, 100, 900, 0, .E_TIME_OK, true⟩ : TimeState).enTimeCurrentStatus = .E_TIME_OK →
      (sync_check 0 7 ⟨1000, 100, 900, 0, .E_TIME_OK, true⟩).enTimeCurrentStatus = .E_TIME_NEEDS_SYNC) ∧
    ((⟨1000, 100, 900, 0, .E_TIME_OK, true⟩ : TimeState).enTimeCurrentStatus = .E_TIME_NEEDS_SYNC →
      (sync_check 0 7 ⟨1000, 100, 900, 0, .E_TIME_OK, true⟩).enTimeCurrentStatus = .E_TIME_NEEDS_SYNC) :=
  sync_fail_transitions ⟨1000, 100, 900, 0, .E_TIME_OK, true⟩ 7 (by decide) (by decide)

/-- C5: immediately after any sync attempt, whether the provider returned
nonzero (routed through time_set) or 0, next_sync_at minus seconds_counter
equals sync_interval; the same identity holds right after any direct
time_set call. -/
theorem sync_rearm :
    (∀ (s : TimeState) (ret tick : Nat), s.sync_next ≤ s.sys_time →
        s.time_provider_callback = true →
        (sync_check ret tick s).sync_next - (sync_check ret tick s).sys_time = s.sync_interval) ∧
    (∀ (s : TimeState) (now tick : Nat),
        (time_set now tick s).sync_next - (time_set now tick s).sys_time = s.sync_interval) := by
  constructor
  · intro s ret tick hdue hprov
    unfold sync_check
    rw [if_pos hdue, if_pos hprov]
    by_cases hr : ret ≠ 0
    · rw [if_pos hr]
      show (ret + s.sync_interval) - ret = s.sync_interval
      omega
    · rw [if_neg hr]
      show (s.sys_time + s.sync_interval) - s.sys_time = s.sync_interval
      omega
  · intro s now tick
    show (now + s.sync_interval) - now = s.sync_interval
    omega

/-- Witness for sync_rearm: a failed sync attempt on a concrete overdue
state, and a direct time_set on the initial state. -/
theorem sync_rearm_witness :
    (sync_check 0 3 ⟨50, 10, 40, 0, .E_TIME_OK, true⟩).sync_next -
      (sync_check 0 3 ⟨50, 10, 40, 0, .E_TIME_OK, true⟩).sys_time = 10 ∧
    (time_set 7 3 initState).sync_next - (time_set 7 3 initState).sys_time = 86400 :=
  ⟨sync_rearm.1 ⟨50, 10, 40, 0, .E_TIME_OK, true⟩ 0 3 (by decide) (by decide),
   sync_rearm.2 initState 7 3⟩

/-- C7: the tick accumulator computes the elapsed delta with unsigned
modular subtraction, so when the tick counter advances by e ticks, wrapping
through 0 or not, the observed delta is exactly e and the while loop
advances the counter by the correct e / TPS whole seconds, provided e is
less than one full wrap. -/
theorem tick_wrap_transparent (lastv e st TPS : Nat) (hl : lastv < U32) (he : e < U32)
    (hTPS : 0 < TPS) :
    usub32 ((lastv + e) % U32) lastv = e ∧
    (tick_loop TPS ((lastv + e) % U32) (usub32 ((lastv + e) % U32) lastv) st lastv).1 =
      st + e / TPS := by
  have h1 : usub32 ((lastv + e) % U32) lastv = e := by
    simp only [usub32, U32] at *; omega
  refine ⟨h1, ?_⟩
  rw [tick_loop_spec TPS ((lastv + e) % U32) hTPS _ st lastv hl (Nat.le_refl _), h1]

/-- Witness for tick_wrap_transparent at a wrap of the 32-bit tick counter:
last mark 4294967290, 9 elapsed ticks crossing 0, 4 ticks per second. -/
theorem tick_wrap_transparent_witness :
    usub32 ((4294967290 + 9) % U32) 4294967290 = 9 ∧
    (tick_loop 4 ((4294967290 + 9) % U32) (usub32 ((4294967290 + 9) % U32) 4294967290)
      100 4294967290).1 = 100 + 9 / 4 :=
  tick_wrap_transparent 4294967290 9 100 4 (by decide) (by decide) (by decide)

/-- C9: registering a provider with a null callback leaves the whole module
state unchanged and drives no get cycle. -/
theorem set_provider_null_noop (TPS timespan tick ret : Nat) (s : TimeState) :
    time_set_provider TPS false timespan tick ret s = s := rfl

lemma time_get_residual (TPS tick ret : Nat) (s : TimeState) (hTPS : 0 < TPS)
    (hlu : s.last_update < U32) :
    usub32 tick (time_get TPS tick ret s).2.last_update < TPS ∧
    (time_get TPS tick ret s).2.last_update < U32 ∧
    (time_get TPS tick ret s).1 = (time_get TPS tick ret s).2.sys_time := by
  have hlu1 := sync_check_lu ret tick s hlu
  rw [time_get_eq TPS tick ret s hTPS hlu1]
  refine ⟨?_, ?_, rfl⟩
  · show usub32 tick (((sync_check ret tick s).last_update +
        usub32 tick (sync_check ret tick s).last_update / TPS * TPS) % U32) < TPS
    set lu := (sync_check ret tick s).last_update with hludef
    set e := usub32 tick lu with hedef
    have hk : e / TPS * TPS ≤ e := Nat.div_mul_le_self e TPS
    rw [usub32_shift tick lu (e / TPS * TPS) hk]
    have hdm : e % TPS + e / TPS * TPS = e := Nat.mod_add_div' e TPS
    have hm : e % TPS < TPS := Nat.mod_lt _ hTPS
    omega
  · show ((sync_check ret tick s).last_update +
        usub32 tick (sync_check ret tick s).last_update / TPS * TPS) % U32 < U32
    simp only [U32]; omega

/-- C3: between two consecutive time_get calls during which the tick counter
advances by exactly N * TPS ticks (with at most one counter wrap) and no
sync event takes effect at the second call (any due provider invocation
returns 0 and no explicit set happens), the returned seconds counter
advances by exactly N; the residual sub-second ticks carried in last_update
make the advance exact. -/
theorem drift_free (TPS : Nat) (hTPS : 0 < TPS) (s : TimeState) (hlu : s.last_update < U32)
    (t1 r1 t2 r2 N : Nat)
    (hadv : usub32 t2 t1 = N * TPS)
    (hwrap : N * TPS + TPS ≤ U32)
    (hnosync : (time_get TPS t1 r1 s).2.sync_next ≤ (time_get TPS t1 r1 s).2.sys_time →
               (time_get TPS t1 r1 s).2.time_provider_callback = true → r2 = 0) :
    (time_get TPS t2 r2 (time_get TPS t1 r1 s).2).1 = (time_get TPS t1 r1 s).1 + N := by
  obtain ⟨hres, hlu2, hfst⟩ := time_get_residual TPS t1 r1 s hTPS hlu
  obtain ⟨hsys, hlast⟩ := sync_check_nofx r2 t2 (time_get TPS t1 r1 s).2 hnosync
  have hlu3 : (sync_check r2 t2 (time_get TPS t1 r1 s).2).last_update < U32 := by
    rw [hlast]; exact hlu2
  rw [time_get_eq TPS t2 r2 (time_get TPS t1 r1 s).2 hTPS hlu3]
  show (sync_check r2 t2 (time_get TPS t1 r1 s).2).sys_time +
      usub32 t2 (sync_check r2 t2 (time_get TPS t1 r1 s).2).last_update / TPS =
    (time_get TPS t1 r1 s).1 + N
  rw [hsys, hlast, hfst]
  have hchain : usub32 t2 (time_get TPS t1 r1 s).2.last_update =
      usub32 t2 t1 + usub32 t1 (time_get TPS t1 r1 s).2.last_update := by
    apply usub32_chain
    rw [hadv]; omega
  rw [hchain, hadv]
  have hq : (N * TPS + usub32 t1 (time_get TPS t1 r1 s).2.last_update) / TPS = N := by
    rw [Nat.add_comm, Nat.add_mul_div_right _ _ hTPS, Nat.div_eq_of_lt hres]
    omega
  rw [hq]

/-- Witness for drift_free: starting from the initial state with 2 ticks per
second, ticks 3 then 7 (advance of 2 * 2 ticks) yield returns 1 and 3. -/
theorem drift_free_witness :
    (time_get 2 7 0 (time_get 2 3 0 initState).2).1 = (time_get 2 3 0 initState).1 + 2 :=
  drift_free 2 (by decide) initState (by decide) 3 0 7 0 2 (by decide) (by decide)
    (fun _ hp => absurd hp (by decide))

lemma time_get_status (TPS tick ret : Nat) (s : TimeState) :
    (time_get TPS tick ret s).2.enTimeCurrentStatus =
      (sync_check ret tick s).enTimeCurrentStatus := rfl

lemma status_ghost_inv (TPS : Nat) :
    ∀ (tr : List TEvent) (s : TimeState) (g : Bool),
      (s.enTimeCurrentStatus = .E_TIME_OK ↔ g = true) →
      ((run TPS s tr).enTimeCurrentStatus = .E_TIME_OK ↔ okAmended TPS g s tr = true) := by
  intro tr
  induction tr with
  | nil => intro s g h; simpa [run, okAmended] using h
  | cons e es ih =>
      intro s g h
      simp only [run, okAmended]
      cases e with
      | eset now tick =>
          exact ih _ _ (by simp [step, time_set])
      | eget tick ret =>
          apply ih
          show ((time_get TPS tick ret s).2.enTimeCurrentStatus = .E_TIME_OK ↔ _)
          rw [time_get_status]
          by_cases h1 : s.sync_next ≤ s.sys_time
          · by_cases h2 : s.time_provider_callback = true
            · by_cases h3 : ret = 0
              · subst h3
                cases hst : s.enTimeCurrentStatus <;> simp [sync_check, h1, h2, hst]
              · simp [sync_check, h1, h2, h3, time_set]
            · simpa [sync_check, h1, h2] using h
          · simpa [sync_check, h1] using h
      | eprov cb ts2 tick ret =>
          apply ih
          cases cb with
          | false =>
              simpa [step, time_set_provider] using h
          | true =>
              show ((time_set_provider TPS true ts2 tick ret s).enTimeCurrentStatus = .E_TIME_OK ↔ _)
              unfold time_set_provider
              rw [if_neg (by simp)]
              rw [time_get_status]
              by_cases h3 : ret = 0
              · subst h3
                cases hst : s.enTimeCurrentStatus <;> simp [sync_check, hst]
              · simp [sync_check, h3, time_set]

/-- C2 as stated is false: time_set stores E_TIME_OK unconditionally, so
after the call time_set(0) the status is E_TIME_OK although the most recent
set call had argument 0. -/
theorem status_law_counterexample :
    ¬ (((run 1 initState [.eset 0 0]).enTimeCurrentStatus = .E_TIME_OK) ↔
        okSpec 1 false initState [.eset 0 0] = true) := by
  decide

/-- C2 amended: at every reachable state, clock_status equals E_TIME_OK if
and only if some set call has occurred (directly or via a successful
provider sync, regardless of the argument value) and no event of the
provider returning 0 while due has occurred since the most recent one. -/
theorem status_law_amended (TPS : Nat) (tr : List TEvent) :
    (run TPS initState tr).enTimeCurrentStatus = .E_TIME_OK ↔
      okAmended TPS false initState tr = true :=
  status_ghost_inv TPS tr initState false (by simp [initState])

lemma getOutputs_mono_aux (TPS : Nat) :
    ∀ (gets : List (Nat × Nat)) (s : TimeState), noEffSync TPS s gets →
      List.Chain' (· ≤ ·) (s.sys_time :: getOutputs TPS s gets) := by
  intro gets
  induction gets with
  | nil => intro s _; simp [getOutputs]
  | cons p rest ih =>
      obtain ⟨tick, ret⟩ := p
      intro s h
      obtain ⟨h1, h2⟩ := h
      simp only [getOutputs]
      rw [List.chain'_cons]
      constructor
      · have hs := (sync_check_nofx ret tick s h1).1
        show s.sys_time ≤ (time_get TPS tick ret s).1
        calc s.sys_time = (sync_check ret tick s).sys_time := hs.symm
          _ ≤ (time_get TPS tick ret s).1 := tick_loop_fst_le TPS tick _ _ _
      · have hsys : (time_get TPS tick ret s).1 = (time_get TPS tick ret s).2.sys_time := rfl
        rw [hsys]
        exact ih _ h2

/-- C6 as stated is false: a successful provider sync inside a time_get can
set the clock backwards, so a sequence of time_get calls alone (no
intervening explicit time_set between them) can return decreasing values. -/
theorem get_monotonic_counterexample :
    ¬ (∀ (TPS : Nat) (s : TimeState) (gets : List (Nat × Nat)), 0 < TPS →
         List.Chain' (· ≤ ·) (getOutputs TPS s gets)) := by
  intro hcl
  have h := hcl 1 (run 1 initState [.eset 1000 0, .eprov true 100 0 0]) [(200, 0), (200, 500)]
    (by decide)
  have he : getOutputs 1 (run 1 initState [.eset 1000 0, .eprov true 100 0 0])
      [(200, 0), (200, 500)] = [1200, 500] := by decide
  rw [he, List.chain'_cons] at h
  exact absurd h.1 (by decide)

/-- C6 amended: across any sequence of consecutive time_get calls with no
intervening time_set and during which no provider invocation takes effect
(whenever a sync is due and a provider is registered, the provider returns
0), the returned timestamps are nondecreasing. -/
theorem get_monotonic_amended (TPS : Nat) (s : TimeState) (gets : List (Nat × Nat))
    (h : noEffSync TPS s gets) : List.Chain' (· ≤ ·) (getOutputs TPS s gets) :=
  (getOutputs_mono_aux TPS gets s h).tail

/-- Witness for get_monotonic_amended: two get calls on the initial state
(no provider registered) with 2 ticks per second. -/
theorem get_monotonic_amended_witness :
    List.Chain' (· ≤ ·) (getOutputs 2 initState [(5, 0), (9, 0)]) :=
  get_monotonic_amended 2 initState [(5, 0), (9, 0)]
    ⟨fun _ hp => absurd hp (by decide), fun _ hp => absurd hp (by decide), trivial⟩

/-- C8 as stated is false: 68256000 breaks to 1972-03-01, not 1972-02-29
(which is 68169600). -/
theorem break_68256000_counterexample :
    ¬ ((time_break 68256000).tm_mday = 29 ∧ (time_break 68256000).tm_mon = 2 ∧
       (time_break 68256000).tm_year = 2 ∧ time_make (time_break 68256000) = 68256000) := by
  decide

/-- C8 amended: time_break 68169600 produces day_of_month 29, month 2, year
offset 2 (1972-02-29), and time_make applied to that broken-down value
returns 68169600. -/
theorem break_leap_day_1972 :
    (time_break 68169600).tm_mday = 29 ∧ (time_break 68169600).tm_mon = 2 ∧
    (time_break 68169600).tm_year = 2 ∧ time_make (time_break 68169600) = 68169600 := by
  decide

lemma leapSecsTotal_eq (y : Nat) : leapSecsTotal y = TIME_SECS_PER_DAY * leapDays y := by
  induction y with
  | zero => rfl
  | succ n ih =>
      simp only [leapSecsTotal, leapDays, ih, Nat.add_comm 1970 n]
      cases h : time_is_leap (n + 1970) <;> simp [h, TIME_SECS_PER_DAY, Nat.mul_add]

lemma dayTotal_succ (y : Nat) :
    dayTotal (y + 1) = dayTotal y + (if time_is_leap (1970 + y) then 366 else 365) := by
  simp only [dayTotal, leapDays]
  split <;> omega

lemma dayTotal_ge (y : Nat) : 365 * y ≤ dayTotal y := Nat.le_add_right _ _

lemma yearLoop_go (xTime : Nat) :
    ∀ (fuel y0 : Nat), dayTotal y0 ≤ xTime → xTime < dayTotal (y0 + fuel) →
      ∃ y, yearLoop xTime fuel y0 (dayTotal y0) = (y, dayTotal y) ∧
        dayTotal y ≤ xTime ∧ xTime < dayTotal (y + 1) := by
  intro fuel
  induction fuel with
  | zero =>
      intro y0 h1 h2
      rw [Nat.add_zero] at h2
      omega
  | succ n ih =>
      intro y0 h1 h2
      simp only [yearLoop]
      by_cases hc : dayTotal y0 + (if time_is_leap (1970 + y0) then 366 else 365) ≤ xTime
      · rw [if_pos hc, ← dayTotal_succ]
        have harg : y0 + 1 + n = y0 + (n + 1) := by omega
        exact ih (y0 + 1) (by rw [dayTotal_succ]; exact hc) (by rw [harg]; exact h2)
      · rw [if_neg hc]
        exact ⟨y0, rfl, h1, by rw [dayTotal_succ]; omega⟩

lemma yearLoop_root (d : Nat) :
    ∃ y, yearLoop d (d + 1) 0 0 = (y, dayTotal y) ∧ dayTotal y ≤ d ∧ d < dayTotal (y + 1) := by
  have h0 : dayTotal 0 = 0 := rfl
  have hbig : d < dayTotal (0 + (d + 1)) := by
    have harg : (0 : Nat) + (d + 1) = d + 1 := by omega
    rw [harg]
    have := dayTotal_ge (d + 1)
    omega
  have := yearLoop_go d (d + 1) 0 (by rw [h0]; omega) hbig
  rw [h0] at this
  exact this

lemma monthLoop_step (leapYear : Bool) (fuel month xTime : Nat) :
    monthLoop leapYear (fuel + 1) month xTime =
      if month < 12 then
        if monthLen leapYear month ≤ xTime then
          monthLoop leapYear fuel (month + 1) (xTime - monthLen leapYear month)
        else (month, xTime)
      else (month, xTime) := rfl

lemma cumMonth_le (leapYear : Bool) (m n : Nat) (h : m ≤ n) :
    cumMonth leapYear m ≤ cumMonth leapYear n := by
  induction n with
  | zero => rw [Nat.le_zero.mp h]
  | succ k ih =>
      by_cases hm : m ≤ k
      · exact Nat.le_trans (ih hm) (Nat.le_add_right _ _)
      · have : m = k + 1 := by omega
        rw [this]

lemma monthLoop_go (leapYear : Bool) :
    ∀ (fuel m x : Nat), m + fuel = 12 →
      x < cumMonth leapYear 12 - cumMonth leapYear m →
      ∃ m2 x2, monthLoop leapYear fuel m x = (m2, x2) ∧
        cumMonth leapYear m2 + x2 = cumMonth leapYear m + x ∧
        x2 < monthLen leapYear m2 ∧ m ≤ m2 ∧ m2 < 12 := by
  intro fuel
  induction fuel with
  | zero =>
      intro m x hm hx
      have hm12 : m = 12 := by omega
      subst hm12
      omega
  | succ n ih =>
      intro m x hm hx
      rw [monthLoop_step, if_pos (show m < 12 by omega)]
      by_cases hc : monthLen leapYear m ≤ x
      · rw [if_pos hc]
        have hcum : cumMonth leapYear (m + 1) = cumMonth leapYear m + monthLen leapYear m := rfl
        have hle : cumMonth leapYear (m + 1) ≤ cumMonth leapYear 12 :=
          cumMonth_le leapYear (m + 1) 12 (by omega)
        obtain ⟨m2, x2, he, hsum, hlt, hge, h12⟩ :=
          ih (m + 1) (x - monthLen leapYear m) (by omega) (by omega)
        exact ⟨m2, x2, he, by omega, hlt, by omega, h12⟩
      · rw [if_neg hc]
        exact ⟨m, x, rfl, rfl, by omega, Nat.le_refl m, by omega⟩

lemma cumMonth_twelve (b : Bool) : cumMonth b 12 = if b then 366 else 365 := by
  cases b <;> decide

lemma monSecsTotal_eq (b : Bool) (k : Nat) :
    monSecsTotal b k = TIME_SECS_PER_DAY * cumMonth b k := by
  induction k with
  | zero => rfl
  | succ n ih =>
      simp only [monSecsTotal, ih, cumMonth]
      have hw : (if n + 1 == 2 && b then TIME_SECS_PER_DAY * 29
                 else TIME_SECS_PER_DAY * month_length.getD (n + 1 - 1) 0) =
                TIME_SECS_PER_DAY * monthLen b n := by
        by_cases hn : n = 1
        · subst hn; cases b <;> decide
        · have h2 : (n + 1 == 2) = false := beq_eq_false_iff_ne.mpr (by omega)
          have h1 : (n == 1) = false := beq_eq_false_iff_ne.mpr hn
          simp [h2, h1, monthLen]
      rw [hw]; ring

lemma leapLoop_mod (y : Nat) : ∀ a, leapLoop y (a % U32) = (a + leapSecsTotal y) % U32 := by
  induction y with
  | zero => intro a; simp [leapLoop, leapSecsTotal]
  | succ n ih =>
      intro a
      simp only [leapLoop, leapSecsTotal]
      by_cases h : time_is_leap (n + 1970)
      · rw [if_pos h, if_pos h, ih, Nat.mod_add_mod]
        have : a + leapSecsTotal n + TIME_SECS_PER_DAY =
            a + (leapSecsTotal n + TIME_SECS_PER_DAY) := by omega
        rw [this]
      · rw [if_neg h, if_neg h, ih]
        have : leapSecsTotal n + 0 = leapSecsTotal n := by omega
        rw [this]

lemma monLoop_mod (b : Bool) (k : Nat) : ∀ a, monLoop b k (a % U32) = (a + monSecsTotal b k) % U32 := by
  induction k with
  | zero => intro a; simp [monLoop, monSecsTotal]
  | succ n ih =>
      intro a
      simp only [monLoop, monSecsTotal]
      by_cases h : (n + 1 == 2 && b) = true
      · rw [if_pos h, if_pos h, ih, Nat.mod_add_mod]
        have : a + monSecsTotal b n + TIME_SECS_PER_DAY * 29 =
            a + (monSecsTotal b n + TIME_SECS_PER_DAY * 29) := by omega
        rw [this]
      · rw [if_neg h, if_neg h, ih, Nat.mod_add_mod]
        have : a + monSecsTotal b n + TIME_SECS_PER_DAY * month_length.getD (n + 1 - 1) 0 =
            a + (monSecsTotal b n + TIME_SECS_PER_DAY * month_length.getD (n + 1 - 1) 0) := by
          omega
        rw [this]

lemma time_make_eq_total (t : tm_t) : time_make t = time_make_total t % U32 := by
  simp only [time_make, time_make_total]
  rw [leapLoop_mod, monLoop_mod]
  simp only [Nat.mod_add_mod]

lemma roundtrip_total (ts : Nat) (h : ts < U32) : time_make_total (time_break ts) = ts := by
  simp only [time_break]
  rw [Nat.mod_eq_of_lt h]
  obtain ⟨y, hy, hy1, hy2⟩ := yearLoop_root (ts / 60 / 60 / 24)
  rw [hy]
  dsimp only
  have hdoy : ts / 60 / 60 / 24 - dayTotal y < cumMonth (time_is_leap (1970 + y)) 12 - 0 := by
    rw [dayTotal_succ] at hy2
    cases hl : time_is_leap (1970 + y)
    · rw [hl] at hy2
      simp only [cumMonth_twelve]
      simp at hy2 ⊢
      omega
    · rw [hl] at hy2
      simp only [cumMonth_twelve]
      simp at hy2 ⊢
      omega
  obtain ⟨m2, x2, hm, hsum, hxlt, hge0, hm12⟩ :=
    monthLoop_go (time_is_leap (1970 + y)) 12 0 (ts / 60 / 60 / 24 - dayTotal y)
      (by omega) hdoy
  rw [hm]
  dsimp only
  simp only [time_make_total]
  rw [leapSecsTotal_eq, monSecsTotal_eq]
  rw [Nat.add_comm y 1970]
  simp only [Nat.add_sub_cancel]
  have hdt : dayTotal y = 365 * y + leapDays y := rfl
  have hcum0 : cumMonth (time_is_leap (1970 + y)) 0 = 0 := rfl
  rw [hcum0] at hsum
  simp only [TIME_SECS_PER_DAY, TIME_SECS_PER_HOUR, TIME_SECS_PER_MINUTE]
  omega

/-- C1: for every timestamp ts with 0 ≤ ts < 4102444800, converting with
time_break and back with time_make yields ts again. -/
theorem make_break_roundtrip (ts : Nat) (h : ts < 4102444800) :
    time_make (time_break ts) = ts := by
  have hU : ts < U32 := Nat.lt_trans h (by decide)
  rw [time_make_eq_total, roundtrip_total ts hU, Nat.mod_eq_of_lt hU]

/-- Witness for make_break_roundtrip at 951868800 (2000-03-01). -/
theorem make_break_roundtrip_witness : time_make (time_break 951868800) = 951868800 :=
  make_break_roundtrip 951868800 (by decide)

/-- C10: both calendar conversions work modulo 2^32: time_break truncates
its input to 32 bits before decomposition, and time_make accumulates its
result in a 32-bit unsigned value, i.e. it returns the unbounded-arithmetic
reference value reduced modulo U32. -/
theorem conversions_mod_u32 :
    (∀ ts : Nat, time_break ts = time_break (ts % U32)) ∧
    (∀ t : tm_t, time_make t = time_make_total t % U32) := by
  constructor
  · intro ts
    simp only [time_break]
    rw [Nat.mod_eq_of_lt (Nat.mod_lt ts (by decide))]
  · exact time_make_eq_total

end TimeLib
